import Mathlib

/-!
Verification of the `BankingData` pipeline (src/Banking.py) against its
natural-language specification.

The pandas dataframes are embedded shallowly as lists of records.  Nullable
columns (pandas `NaN`/`NaT`) are `Option` fields.  Monetary amounts are exact
rationals `ℚ` (idealizing pandas floats).  The pandas operations used by the
source are modelled faithfully:

* `drop_duplicates(subset=[k])` keeps the first row per key value, with null
  keys considered equal to each other (`dedupBy`);
* `dropna(subset=...)` filters rows whose listed fields are non-null;
* `merge(..., how='left')` keeps every left row, emitting one row per match
  and a single null-padded row when there is no match; null keys match null
  keys (pandas merge semantics);
* `groupby([...])` with the default `dropna=True` removes rows whose grouping
  key has a null component and sorts the groups by key;
* `agg` with `'count'` counts non-null values, `'sum'` skips nulls (empty sum
  is 0), `'mean'` skips nulls (null for an empty basis), `'nunique'` counts
  distinct non-null values;
* `Series.quantile(0.90)` is the linear-interpolation quantile (null on an
  empty series), and filter comparisons against a null threshold are false;
* `Series.rank(pct=True, ascending=False)` gives each value the average
  one-based position of its tie block in descending order, divided by the
  number of values.

`sort_values` is modelled with a stable insertion sort; the claims checked
here are insensitive to the order of tied rows.
-/

/-- A calendar date, as produced by `pd.to_datetime` on a parseable value. -/
structure PDate where
  year : Nat
  month : Nat
  day : Nat
deriving DecidableEq, Repr

/-- A raw row of `bank_transactions.csv`.  Every column is nullable. -/
structure TxRow where
  transaction_id : Option Nat
  customer_id : Option String
  account_id : Option String
  transaction_date : Option PDate
  transaction_type : Option String
  amount : Option ℚ
  merchant_category : Option String
deriving DecidableEq, Repr

/-- A raw row of `bank_customers.csv`. -/
structure CustRow where
  customer_id : Option String
  age : Option Int
  city : Option String
  credit_score : Option Int
  employment_status : Option String
deriving DecidableEq, Repr

/-- A raw row of `bank_accounts.csv`. -/
structure AcctRow where
  account_id : Option String
  account_type : Option String
deriving DecidableEq, Repr

/-- First-occurrence deduplication by key, accumulating the key values already
seen; models `DataFrame.drop_duplicates(subset=[...])` (null keys duplicate
each other, exactly as `Option` equality). -/
def dedupByAux (key : α → κ) [DecidableEq κ] (seen : List κ) : List α → List α
  | [] => []
  | x :: xs =>
    if key x ∈ seen then dedupByAux key seen xs
    else x :: dedupByAux key (key x :: seen) xs

/-- Deduplication keeping the first row per key value. -/
def dedupBy (key : α → κ) [DecidableEq κ] (l : List α) : List α :=
  dedupByAux key [] l

/-- Cleaning of the transactions table (Banking.py lines 54-56):
`drop_duplicates(subset=['transaction_id'])` then
`dropna(subset=['amount', 'customer_id'])`. -/
def cleanTransactions (ts : List TxRow) : List TxRow :=
  (dedupBy (fun r => r.transaction_id) ts).filter
    (fun r => r.amount.isSome && r.customer_id.isSome)

/-- Cleaning of the customers table (Banking.py lines 59-61):
`drop_duplicates(subset=['customer_id'])` then
`dropna(subset=['customer_id'])`. -/
def cleanCustomers (cs : List CustRow) : List CustRow :=
  (dedupBy (fun r => r.customer_id) cs).filter (fun r => r.customer_id.isSome)

/-- The `'YYYY-MM'` string produced by `dt.to_period('M').astype(str)`;
a missing date (`NaT`) stringifies to `"NaT"`. -/
def monthStr (d : Option PDate) : String :=
  match d with
  | none => "NaT"
  | some d =>
    toString d.year ++ "-" ++ (if d.month < 10 then "0" else "") ++ toString d.month

/-- A cleaned transaction with the three derived columns of
Banking.py lines 65-67. -/
structure TxE extends TxRow where
  transaction_month : String
  transaction_year : Option Int
  is_high_value : Nat
deriving DecidableEq, Repr

/-- Enrichment (Banking.py lines 65-67): month string, year and the
`is_high_value` flag `(amount > 5000).astype(int)` (a null amount compares
false, but cleaning has already removed null amounts). -/
def enrich (r : TxRow) : TxE :=
  { r with
    transaction_month := monthStr r.transaction_date
    transaction_year := r.transaction_date.map (fun d => (d.year : Int))
    is_high_value :=
      match r.amount with
      | some a => if 5000 < a then 1 else 0
      | none => 0 }

/-- A row of the fact table (Banking.py lines 82-87), in the projected column
set. -/
structure FactRow where
  transaction_id : Option Nat
  customer_id : Option String
  account_id : Option String
  transaction_date : Option PDate
  transaction_month : String
  transaction_year : Option Int
  transaction_type : Option String
  amount : Option ℚ
  merchant_category : Option String
  is_high_value : Nat
  age : Option Int
  city : Option String
  account_type : Option String
  credit_score : Option Int
  employment_status : Option String
deriving DecidableEq, Repr

/-- Generic left join (pandas `merge(..., how='left')`): every left row is
kept; a row per matching right row, or a single unmatched row.  Null keys
match null keys, as in pandas merge. -/
def leftJoinOn (ls : List L) (rs : List R) (lk : L → Option String)
    (rk : R → Option String) (mk : L → Option R → O) : List O :=
  ls.flatMap (fun x =>
    match rs.filter (fun r => decide (rk r = lk x)) with
    | [] => [mk x none]
    | ms => ms.map (fun r => mk x (some r)))

/-- Projection of one joined row onto the fact-table columns
(Banking.py lines 82-87); unmatched right-hand fields are null. -/
def mkFact (t : TxE) (c : Option CustRow) (a : Option AcctRow) : FactRow :=
  { transaction_id := t.transaction_id
    customer_id := t.customer_id
    account_id := t.account_id
    transaction_date := t.transaction_date
    transaction_month := t.transaction_month
    transaction_year := t.transaction_year
    transaction_type := t.transaction_type
    amount := t.amount
    merchant_category := t.merchant_category
    is_high_value := t.is_high_value
    age := c.bind (fun x => x.age)
    city := c.bind (fun x => x.city)
    account_type := a.bind (fun x => x.account_type)
    credit_score := c.bind (fun x => x.credit_score)
    employment_status := c.bind (fun x => x.employment_status) }

/-- `transform_data` (Banking.py lines 40-89): clean both tables, enrich the
transactions, left-join customers then accounts, and project the fact
columns.  Returns the fact table and the cleaned customers. -/
def transform_data (ts : List TxRow) (cs : List CustRow) (acs : List AcctRow) :
    List FactRow × List CustRow :=
  let tc := cleanTransactions ts
  let cc := cleanCustomers cs
  let te := tc.map enrich
  let j1 := leftJoinOn te cc (fun x => x.customer_id) (fun r => r.customer_id)
    (fun x o => (x, o))
  let fact := leftJoinOn j1 acs (fun p => p.1.account_id) (fun a => a.account_id)
    (fun p o => mkFact p.1 p.2 o)
  (fact, cc)

/-- Lexicographic comparison of character lists by code point, as pandas
sorts strings. -/
def strLTb : List Char → List Char → Bool
  | [], [] => false
  | [], _ :: _ => true
  | _ :: _, [] => false
  | c :: cs, d :: ds =>
    if c.val < d.val then true
    else if d.val < c.val then false
    else strLTb cs ds

/-- Strict lexicographic order on strings. -/
def strLT (a b : String) : Prop := strLTb a.data b.data = true

instance : DecidableRel strLT := fun _ _ => inferInstanceAs (Decidable (_ = _))

/-- Lexicographic-or-equal order on strings, used to model pandas key sorts. -/
def strLE (a b : String) : Prop := strLT a b ∨ a = b

instance : DecidableRel strLE := fun _ _ => inferInstanceAs (Decidable (_ ∨ _))

/-- Ascending order on the Monthly Summary grouping key
`(transaction_month, account_type)`. -/
def mkeyLE (a b : String × String) : Prop :=
  strLT a.1 b.1 ∨ (a.1 = b.1 ∧ strLE a.2 b.2)

instance : DecidableRel mkeyLE := fun _ _ => inferInstanceAs (Decidable (_ ∨ _))

/-- The Monthly Summary grouping key of a fact row: null `account_type` means
the row is dropped by `groupby` (pandas default `dropna=True`). -/
def monthKey (r : FactRow) : Option (String × String) :=
  r.account_type.map (fun a => (r.transaction_month, a))

/-- The distinct grouping-key values of a table, in first-appearance order;
rows with a null key contribute nothing. -/
def distinctKeys (key : α → Option κ) [DecidableEq κ] (l : List α) : List κ :=
  dedupBy (fun k => k) (l.filterMap key)

/-- The rows of one group. -/
def groupRows (key : α → Option κ) [DecidableEq κ] (l : List α) (k : κ) :
    List α :=
  l.filter (fun r => decide (key r = some k))

/-- The non-null amounts of a list of fact rows (pandas aggregations skip
nulls). -/
def validAmounts (g : List FactRow) : List ℚ :=
  g.filterMap (fun r => r.amount)

/-- A Monthly Summary row (Banking.py lines 104-113). -/
structure MonthlyRow where
  transaction_month : String
  account_type : String
  transaction_count : Nat
  total_amount : ℚ
  avg_transaction_amount : Option ℚ
  active_customers : Nat
deriving DecidableEq, Repr

/-- Aggregation of one Monthly Summary group: `'count'` of non-null
`transaction_id`, skip-null `'sum'` and `'mean'` of `amount`, and `'nunique'`
of non-null `customer_id`. -/
def mkMonthlyRow (k : String × String) (g : List FactRow) : MonthlyRow :=
  { transaction_month := k.1
    account_type := k.2
    transaction_count := (g.filter (fun r => r.transaction_id.isSome)).length
    total_amount := (validAmounts g).sum
    avg_transaction_amount :=
      if (validAmounts g).length = 0 then none
      else some ((validAmounts g).sum / ((validAmounts g).length : ℚ))
    active_customers :=
      (dedupBy (fun k => k) (g.filterMap (fun r => r.customer_id))).length }

/-- Ascending sort key of `sort_values(['transaction_month', 'account_type'])`
on the Monthly Summary rows. -/
def mrowLE (a b : MonthlyRow) : Prop :=
  mkeyLE (a.transaction_month, a.account_type) (b.transaction_month, b.account_type)

instance : DecidableRel mrowLE := fun _ _ => inferInstanceAs (Decidable (mkeyLE _ _))

/-- The Monthly Summary (Banking.py lines 104-113): group by
`(transaction_month, account_type)` (null keys dropped, groups sorted by
key), aggregate, then `sort_values` by the same key. -/
def monthly_summary (ft : List FactRow) : List MonthlyRow :=
  (((distinctKeys monthKey ft).insertionSort mkeyLE).map
    (fun k => mkMonthlyRow k (groupRows monthKey ft k))).insertionSort mrowLE

/-- The customer-metrics grouping key
`(customer_id, age, city, credit_score, employment_status)`. -/
abbrev CMKey := String × Int × String × Int × String

/-- Ascending order on customer-metrics keys (lexicographic). -/
def cmkLE (a b : CMKey) : Prop :=
  strLT a.1 b.1 ∨ (a.1 = b.1 ∧
    (a.2.1 < b.2.1 ∨ (a.2.1 = b.2.1 ∧
      (strLT a.2.2.1 b.2.2.1 ∨ (a.2.2.1 = b.2.2.1 ∧
        (a.2.2.2.1 < b.2.2.2.1 ∨ (a.2.2.2.1 = b.2.2.2.1 ∧
          strLE a.2.2.2.2 b.2.2.2.2)))))))

instance : DecidableRel cmkLE := fun _ _ => inferInstanceAs (Decidable (_ ∨ _))

/-- The customer-metrics grouping key of a fact row; any null component makes
`groupby` drop the row (pandas default `dropna=True`), which is what happens
to transactions whose customer had no match in the customer join. -/
def cmKey (r : FactRow) : Option CMKey :=
  match r.customer_id, r.age, r.city, r.credit_score, r.employment_status with
  | some a, some b, some c, some d, some e => some (a, b, c, d, e)
  | _, _, _, _, _ => none

/-- A customer-metrics row (Banking.py lines 116-122). -/
structure CMRow where
  customer_id : String
  age : Int
  city : String
  credit_score : Int
  employment_status : String
  transaction_count : Nat
  total_spent : ℚ
  high_value_txn_count : Nat
deriving DecidableEq, Repr

/-- Aggregation of one customer-metrics group. -/
def mkCMRow (k : CMKey) (g : List FactRow) : CMRow :=
  { customer_id := k.1
    age := k.2.1
    city := k.2.2.1
    credit_score := k.2.2.2.1
    employment_status := k.2.2.2.2
    transaction_count := (g.filter (fun r => r.transaction_id.isSome)).length
    total_spent := (validAmounts g).sum
    high_value_txn_count := (g.map (fun r => r.is_high_value)).sum }

/-- The customer-metrics table (Banking.py lines 116-122). -/
def customer_metrics (ft : List FactRow) : List CMRow :=
  ((distinctKeys cmKey ft).insertionSort cmkLE).map
    (fun k => mkCMRow k (groupRows cmKey ft k))

/-- `Series.quantile(0.90)` with linear interpolation: position
`h = 0.9 * (n - 1)` in the ascending sort, interpolating between the
neighbouring order statistics; null for an empty series. -/
def quantile90 (l : List ℚ) : Option ℚ :=
  let s := l.insertionSort (fun a b => a ≤ b)
  match s.length with
  | 0 => none
  | Nat.succ m =>
    let pos := 9 * m
    let i := pos / 10
    let frac : ℚ := ((pos % 10 : ℕ) : ℚ) / 10
    some (s.getD i 0 + frac * (s.getD (i + 1) (s.getD i 0) - s.getD i 0))

/-- `Series.rank(pct=True, ascending=False, method='average')`: the average
one-based position of `v`'s tie block in the descending order of `col`,
divided by the number of values. -/
def rankPctDesc (col : List ℚ) (v : ℚ) : ℚ :=
  (((col.countP (fun u => decide (v < u))) : ℚ)
      + (((col.countP (fun u => decide (u = v))) : ℚ) + 1) / 2)
    / (col.length : ℚ)

/-- A High-Value Customers row: a customer-metrics row plus the appended
`rank` column. -/
structure HVRow extends CMRow where
  rank : ℚ
deriving DecidableEq, Repr

/-- Descending order by `total_spent` for
`sort_values('total_spent', ascending=False)`. -/
def cmGE (a b : CMRow) : Prop := b.total_spent ≤ a.total_spent

instance : DecidableRel cmGE := fun _ _ => inferInstanceAs (Decidable (_ ≤ _))

instance : IsTotal CMRow cmGE :=
  ⟨fun a b => by unfold cmGE; exact le_total b.total_spent a.total_spent⟩

instance : IsTrans CMRow cmGE :=
  ⟨fun a b c h h2 => by unfold cmGE at *; exact le_trans h2 h⟩

/-- High-Value Customers (Banking.py lines 124-130): threshold at the 0.9
quantile of `total_spent` over all groups, retain rows at or above it
(comparison with a null threshold is false), sort descending by
`total_spent`, and append the `rank` column — the percentile rank computed
over the retained column only. -/
def high_value_customers (cm : List CMRow) : List HVRow :=
  match quantile90 (cm.map (fun r => r.total_spent)) with
  | none => []
  | some th =>
    let retained := cm.filter (fun r => decide (th ≤ r.total_spent))
    let sorted := retained.insertionSort cmGE
    sorted.map (fun r =>
      { toCMRow := r
        rank := rankPctDesc (sorted.map (fun x => x.total_spent)) r.total_spent })

/-- A Category Analysis row (Banking.py lines 133-139). -/
structure CatRow where
  merchant_category : String
  transaction_count : Nat
  total_amount : ℚ
  avg_amount : Option ℚ
deriving DecidableEq, Repr

/-- Aggregation of one merchant-category group. -/
def mkCatRow (k : String) (g : List FactRow) : CatRow :=
  { merchant_category := k
    transaction_count := (g.filter (fun r => r.transaction_id.isSome)).length
    total_amount := (validAmounts g).sum
    avg_amount :=
      if (validAmounts g).length = 0 then none
      else some ((validAmounts g).sum / ((validAmounts g).length : ℚ)) }

/-- The Category Analysis grouping key; a null `merchant_category` drops the
row. -/
def catKey (r : FactRow) : Option String := r.merchant_category

/-- Descending order by `total_amount` for
`sort_values('total_amount', ascending=False)`. -/
def catGE (a b : CatRow) : Prop := b.total_amount ≤ a.total_amount

instance : DecidableRel catGE := fun _ _ => inferInstanceAs (Decidable (_ ≤ _))

/-- Category Analysis (Banking.py lines 133-139): group by
`merchant_category` (null keys dropped), aggregate, sort descending by total
amount. -/
def category_analysis (ft : List FactRow) : List CatRow :=
  (((distinctKeys catKey ft).insertionSort strLE).map
    (fun k => mkCatRow k (groupRows catKey ft k))).insertionSort catGE

/-- `generate_insights` (Banking.py lines 91-141). -/
def generate_insights (ft : List FactRow) :
    List MonthlyRow × List HVRow × List CatRow :=
  (monthly_summary ft,
   high_value_customers (customer_metrics ft),
   category_analysis ft)

/-- The console messages of `display_insights` (Banking.py lines 143-159):
three headers, each followed by a rendering of the first ten rows of the
corresponding table. -/
def display_insights (m : List MonthlyRow) (hv : List HVRow)
    (c : List CatRow) : List String :=
  ["Monhly transactions", reprStr (m.take 10),
   "Top 10 customers", reprStr (hv.take 10),
   "Merchant categories", reprStr (c.take 10)]

/-- `run` (Banking.py lines 161-190).  The`try` body runs extraction, the
pure transform/insight stages, and display; `except` prints a single
`"Pipeline failed: ..."` diagnostic and re-raises.  Extraction is external
(HTTP/CSV), so the model takes its outcome as the argument; the remaining
stages are total functions of the embedding, so an extraction failure is the
failure of any stage surfaced at the `try`.  Returns the result delivered to
the caller together with the list of printed messages. -/
def runPipeline
    (extracted : Except String (List TxRow × List CustRow × List AcctRow)) :
    Except String (List MonthlyRow × List HVRow × List CatRow) × List String :=
  match extracted with
  | Except.error e => (Except.error e, ["Pipeline failed: " ++ e])
  | Except.ok (ts, cs, acs) =>
    let fact := (transform_data ts cs acs).1
    let out := generate_insights fact
    (Except.ok out, display_insights out.1 out.2.1 out.2.2)

/-! ### Deduplication lemmas -/

theorem dedupByAux_sublist (key : α → κ) [DecidableEq κ] :
    ∀ (l : List α) (seen : List κ), List.Sublist (dedupByAux key seen l) l := by
  intro l
  induction l with
  | nil => intro seen; simp [dedupByAux]
  | cons x xs ih =>
    intro seen
    simp only [dedupByAux]
    by_cases h : key x ∈ seen
    · rw [if_pos h]; exact (ih seen).cons x
    · rw [if_neg h]; exact (ih (key x :: seen)).cons₂ x

theorem key_notin_seen_of_mem_dedupByAux (key : α → κ) [DecidableEq κ] :
    ∀ (l : List α) (seen : List κ) (r : α),
      r ∈ dedupByAux key seen l → key r ∉ seen := by
  intro l
  induction l with
  | nil => intro seen r h; simp [dedupByAux] at h
  | cons x xs ih =>
    intro seen r h
    simp only [dedupByAux] at h
    by_cases hx : key x ∈ seen
    · rw [if_pos hx] at h; exact ih seen r h
    · rw [if_neg hx] at h
      rcases List.mem_cons.mp h with rfl | h2
      · exact hx
      · intro hc
        exact ih (key x :: seen) r h2 (List.mem_cons_of_mem _ hc)

theorem pairwise_key_dedupByAux (key : α → κ) [DecidableEq κ] :
    ∀ (l : List α) (seen : List κ),
      (dedupByAux key seen l).Pairwise (fun a b => key a ≠ key b) := by
  intro l
  induction l with
  | nil => intro seen; simp [dedupByAux]
  | cons x xs ih =>
    intro seen
    simp only [dedupByAux]
    by_cases hx : key x ∈ seen
    · rw [if_pos hx]; exact ih seen
    · rw [if_neg hx]
      refine List.Pairwise.cons ?_ (ih (key x :: seen))
      intro b hb hc
      exact key_notin_seen_of_mem_dedupByAux key xs (key x :: seen) b hb
        (hc ▸ List.mem_cons_self _ _)

theorem find?_eq_of_mem_dedupByAux (key : α → κ) [DecidableEq κ] :
    ∀ (l : List α) (seen : List κ) (r : α), r ∈ dedupByAux key seen l →
      l.find? (fun y => decide (key y = key r)) = some r := by
  intro l
  induction l with
  | nil => intro seen r h; simp [dedupByAux] at h
  | cons x xs ih =>
    intro seen r h
    simp only [dedupByAux] at h
    by_cases hx : key x ∈ seen
    · rw [if_pos hx] at h
      have hnotin := key_notin_seen_of_mem_dedupByAux key xs seen r h
      have hne : ¬ (key x = key r) := fun hc => hnotin (hc ▸ hx)
      rw [List.find?_cons_of_neg, ih seen r h]
      simpa using hne
    · rw [if_neg hx] at h
      rcases List.mem_cons.mp h with rfl | h2
      · rw [List.find?_cons_of_pos]
        simp
      · have hnotin := key_notin_seen_of_mem_dedupByAux key xs (key x :: seen) r h2
        have hne : ¬ (key x = key r) := fun hc =>
          hnotin (hc ▸ List.mem_cons_self _ _)
        rw [List.find?_cons_of_neg, ih (key x :: seen) r h2]
        simpa using hne

theorem exists_key_mem_dedupByAux (key : α → κ) [DecidableEq κ] :
    ∀ (l : List α) (seen : List κ) (a : α), a ∈ l →
      key a ∈ seen ∨ ∃ b ∈ dedupByAux key seen l, key b = key a := by
  intro l
  induction l with
  | nil => intro seen a h; simp at h
  | cons x xs ih =>
    intro seen a h
    simp only [dedupByAux]
    by_cases hx : key x ∈ seen
    · rw [if_pos hx]
      rcases List.mem_cons.mp h with rfl | h2
      · exact Or.inl hx
      · exact ih seen a h2
    · rw [if_neg hx]
      rcases List.mem_cons.mp h with rfl | h2
      · exact Or.inr ⟨a, List.mem_cons_self _ _, rfl⟩
      · rcases ih (key x :: seen) a h2 with hs | ⟨b, hb, hkb⟩
        · rcases List.mem_cons.mp hs with heq | hs2
          · exact Or.inr ⟨x, List.mem_cons_self _ _, heq.symm⟩
          · exact Or.inl hs2
        · exact Or.inr ⟨b, List.mem_cons_of_mem _ hb, hkb⟩

theorem dedupByAux_eq_self (key : α → κ) [DecidableEq κ] :
    ∀ (l : List α) (seen : List κ),
      l.Pairwise (fun a b => key a ≠ key b) → (∀ a ∈ l, key a ∉ seen) →
      dedupByAux key seen l = l := by
  intro l
  induction l with
  | nil => intro seen _ _; rfl
  | cons x xs ih =>
    intro seen hp hseen
    have hx : key x ∉ seen := hseen x (List.mem_cons_self _ _)
    simp only [dedupByAux, if_neg hx]
    rcases List.pairwise_cons.mp hp with ⟨hhead, htail⟩
    have : ∀ a ∈ xs, key a ∉ key x :: seen := by
      intro a ha
      intro hc
      rcases List.mem_cons.mp hc with heq | hs
      · exact hhead a ha heq.symm
      · exact hseen a (List.mem_cons_of_mem _ ha) hs
    rw [ih (key x :: seen) htail this]

theorem dedupBy_sublist (key : α → κ) [DecidableEq κ] (l : List α) :
    List.Sublist (dedupBy key l) l :=
  dedupByAux_sublist key l []

theorem pairwise_key_dedupBy (key : α → κ) [DecidableEq κ] (l : List α) :
    (dedupBy key l).Pairwise (fun a b => key a ≠ key b) :=
  pairwise_key_dedupByAux key l []

theorem find?_eq_of_mem_dedupBy (key : α → κ) [DecidableEq κ] (l : List α)
    (r : α) (h : r ∈ dedupBy key l) :
    l.find? (fun y => decide (key y = key r)) = some r :=
  find?_eq_of_mem_dedupByAux key l [] r h

theorem exists_key_mem_dedupBy (key : α → κ) [DecidableEq κ] (l : List α)
    (a : α) (h : a ∈ l) : ∃ b ∈ dedupBy key l, key b = key a := by
  rcases exists_key_mem_dedupByAux key l [] a h with hs | hb
  · simp at hs
  · exact hb

theorem dedupBy_eq_self (key : α → κ) [DecidableEq κ] (l : List α)
    (hp : l.Pairwise (fun a b => key a ≠ key b)) : dedupBy key l = l :=
  dedupByAux_eq_self key l [] hp (by simp)

/-! ### Counting helpers -/

theorem sum_map_add_nat (f g : κ → Nat) (l : List κ) :
    (l.map (fun k => f k + g k)).sum = (l.map f).sum + (l.map g).sum := by
  induction l with
  | nil => rfl
  | cons x xs ih => simp only [List.map_cons, List.sum_cons, ih]; omega

theorem sum_map_indicator_zero [DecidableEq κ] (ks : List κ) (k0 : κ)
    (h : k0 ∉ ks) :
    (ks.map (fun k => if k0 = k then (1 : Nat) else 0)).sum = 0 := by
  induction ks with
  | nil => rfl
  | cons x xs ih =>
    simp only [List.map_cons, List.sum_cons]
    rw [if_neg (fun hc => h (by rw [hc]; exact List.mem_cons_self _ _)),
      ih (fun hc => h (List.mem_cons_of_mem _ hc))]

theorem sum_map_indicator_one [DecidableEq κ] (ks : List κ) (k0 : κ)
    (hnd : ks.Nodup) (hm : k0 ∈ ks) :
    (ks.map (fun k => if k0 = k then (1 : Nat) else 0)).sum = 1 := by
  induction ks with
  | nil => simp at hm
  | cons x xs ih =>
    rcases List.nodup_cons.mp hnd with ⟨hxn, htail⟩
    rcases List.mem_cons.mp hm with rfl | h2
    · simp only [List.map_cons, List.sum_cons]
      rw [sum_map_indicator_zero xs k0 hxn]
      simp
    · have hx : k0 ≠ x := fun hc => hxn (hc ▸ h2)
      simp only [List.map_cons, List.sum_cons, if_neg hx]
      rw [ih htail h2]

theorem countP_add_countP_le_length (p q : α → Bool) (l : List α)
    (h : ∀ x ∈ l, ¬(p x = true ∧ q x = true)) :
    l.countP p + l.countP q ≤ l.length := by
  induction l with
  | nil => simp
  | cons x xs ih =>
    simp only [List.countP_cons, List.length_cons]
    have hx := h x (List.mem_cons_self _ _)
    have ihh := ih (fun y hy => h y (List.mem_cons_of_mem _ hy))
    by_cases hp : p x = true
    · have hq : ¬ q x = true := fun hq => hx ⟨hp, hq⟩
      simp only [hp, Bool.not_eq_true] at *
      simp [hq]
      omega
    · simp only [Bool.not_eq_true] at hp
      by_cases hq : q x = true
      · simp [hp, hq]; omega
      · simp only [Bool.not_eq_true] at hq
        simp [hp, hq]; omega

/-! ### Left-join lemmas -/

theorem filter_key_length_le_one (rk : R → Option String) (rs : List R)
    (hnd : rs.Pairwise (fun a b => rk a ≠ rk b)) (v : Option String) :
    (rs.filter (fun r => decide (rk r = v))).length ≤ 1 := by
  induction rs with
  | nil => simp
  | cons x xs ih =>
    rcases List.pairwise_cons.mp hnd with ⟨hhead, htail⟩
    by_cases hx : rk x = v
    · rw [List.filter_cons_of_pos (by simpa using hx)]
      have hnil : xs.filter (fun r => decide (rk r = v)) = [] := by
        rw [List.filter_eq_nil_iff]
        intro a ha
        simp only [decide_eq_true_eq]
        exact fun hc => hhead a ha (hx.trans hc.symm)
      rw [hnil]
      simp
    · rw [List.filter_cons_of_neg (by simpa using hx)]
      exact ih htail

theorem length_leftJoinOn (ls : List L) (rs : List R) (lk : L → Option String)
    (rk : R → Option String) (mk : L → Option R → O)
    (hnd : rs.Pairwise (fun a b => rk a ≠ rk b)) :
    (leftJoinOn ls rs lk rk mk).length = ls.length := by
  induction ls with
  | nil => rfl
  | cons x xs ih =>
    simp only [leftJoinOn, List.flatMap_cons] at *
    rw [List.length_append, ih, List.length_cons]
    have hone : (match rs.filter (fun r => decide (rk r = lk x)) with
        | [] => [mk x none]
        | ms => ms.map (fun r => mk x (some r))).length = 1 := by
      cases hf : rs.filter (fun r => decide (rk r = lk x)) with
      | nil => rfl
      | cons m ms =>
        have hle := filter_key_length_le_one rk rs hnd (lk x)
        rw [hf] at hle
        simp only [List.length_cons] at hle
        have hms : ms = [] := List.eq_nil_of_length_eq_zero (by omega)
        subst hms
        rfl
    omega

theorem mem_leftJoinOn (ls : List L) (rs : List R) (lk : L → Option String)
    (rk : R → Option String) (mk : L → Option R → O) (y : O)
    (h : y ∈ leftJoinOn ls rs lk rk mk) : ∃ x ∈ ls, ∃ o, y = mk x o := by
  simp only [leftJoinOn, List.mem_flatMap] at h
  rcases h with ⟨x, hx, hy⟩
  refine ⟨x, hx, ?_⟩
  cases hf : rs.filter (fun r => decide (rk r = lk x)) with
  | nil =>
    rw [hf] at hy
    simp only [List.mem_singleton] at hy
    exact ⟨none, hy⟩
  | cons m ms =>
    rw [hf] at hy
    simp only [List.mem_map] at hy
    rcases hy with ⟨r, _, hr⟩
    exact ⟨some r, hr.symm⟩

/-! ### Idempotence of cleaning -/

theorem clean_idem_generic (key : α → κ) [DecidableEq κ] (p : α → Bool)
    (l : List α) :
    (dedupBy key ((dedupBy key l).filter p)).filter p
      = (dedupBy key l).filter p := by
  have hp : ((dedupBy key l).filter p).Pairwise (fun a b => key a ≠ key b) :=
    (pairwise_key_dedupBy key l).filter p
  rw [dedupBy_eq_self key _ hp, List.filter_filter]
  exact List.filter_congr (fun a _ => by cases p a <;> rfl)

/-! ### Group partition: summing per-group counts -/

theorem sum_groups_countP (key : α → Option κ) [DecidableEq κ] (p : α → Bool)
    (l : List α) (ks : List κ) (hnd : ks.Nodup)
    (hcov : ∀ r ∈ l, ∀ k, key r = some k → k ∈ ks) :
    (ks.map (fun k =>
        (l.filter (fun x => decide (key x = some k))).countP p)).sum
      = l.countP (fun x => (key x).isSome && p x) := by
  induction l with
  | nil => simp
  | cons r l ih =>
    have ihh := ih (fun r' h' => hcov r' (List.mem_cons_of_mem _ h'))
    have hstep : ∀ k : κ,
        ((r :: l).filter (fun x => decide (key x = some k))).countP p
          = (l.filter (fun x => decide (key x = some k))).countP p
            + (if key r = some k then (if p r then 1 else 0) else 0) := by
      intro k
      by_cases hk : key r = some k
      · rw [List.filter_cons_of_pos (by simpa using hk), List.countP_cons,
          if_pos hk]
      · rw [List.filter_cons_of_neg (by simpa using hk), if_neg hk]
        rfl
    have hmap : (ks.map (fun k =>
        ((r :: l).filter (fun x => decide (key x = some k))).countP p))
        = ks.map (fun k =>
            (l.filter (fun x => decide (key x = some k))).countP p
              + (if key r = some k then (if p r then 1 else 0) else 0)) :=
      List.map_congr_left (fun k _ => hstep k)
    rw [hmap, sum_map_add_nat, ihh, List.countP_cons]
    congr 1
    cases hk : key r with
    | none => simp
    | some k0 =>
      cases hp : p r with
      | false => simp
      | true =>
        have hmem : k0 ∈ ks := hcov r (List.mem_cons_self _ _) k0 hk
        have : (ks.map (fun k => if some k0 = some k then (1 : Nat) else 0))
            = ks.map (fun k => if k0 = k then (1 : Nat) else 0) :=
          List.map_congr_left (fun k _ => by simp)
        simp only [if_true, this]
        rw [sum_map_indicator_one ks k0 hnd hmem]
        simp

/-! ### Dropped-row invariance of grouping -/

theorem filterMap_filter_of_none (key : α → Option κ) (q : α → Bool)
    (l : List α) (h : ∀ r ∈ l, q r = false → key r = none) :
    (l.filter q).filterMap key = l.filterMap key := by
  induction l with
  | nil => rfl
  | cons x xs ih =>
    have ihh := ih (fun r hr => h r (List.mem_cons_of_mem _ hr))
    cases hq : q x with
    | false =>
      rw [List.filter_cons_of_neg (by simp [hq]),
        List.filterMap_cons_none (h x (List.mem_cons_self _ _) hq), ihh]
    | true =>
      rw [List.filter_cons_of_pos (by simp [hq])]
      cases hk : key x with
      | none => simp only [List.filterMap_cons, hk, ihh]
      | some v => simp only [List.filterMap_cons, hk, ihh]

theorem filter_key_filter_of_none (key : α → Option κ) [DecidableEq κ]
    (q : α → Bool) (l : List α) (k : κ)
    (h : ∀ r ∈ l, q r = false → key r = none) :
    (l.filter q).filter (fun r => decide (key r = some k))
      = l.filter (fun r => decide (key r = some k)) := by
  rw [List.filter_filter]
  apply List.filter_congr
  intro a ha
  cases hq : q a with
  | false =>
    have hk := h a ha hq
    simp [hk]
  | true => simp

theorem distinctKeys_filter_of_none (key : α → Option κ) [DecidableEq κ]
    (q : α → Bool) (l : List α) (h : ∀ r ∈ l, q r = false → key r = none) :
    distinctKeys key (l.filter q) = distinctKeys key l := by
  unfold distinctKeys
  rw [filterMap_filter_of_none key q l h]

theorem groupRows_filter_of_none (key : α → Option κ) [DecidableEq κ]
    (q : α → Bool) (l : List α) (k : κ)
    (h : ∀ r ∈ l, q r = false → key r = none) :
    groupRows key (l.filter q) k = groupRows key l k :=
  filter_key_filter_of_none key q l k h

/-! ### Percentile-rank lemmas -/

theorem countP_eq_pos_of_mem (col : List ℚ) (v : ℚ) (hv : v ∈ col) :
    0 < col.countP (fun u => decide (u = v)) := by
  rw [List.countP_pos_iff]
  exact ⟨v, hv, by simp⟩

theorem countP_lt_eq_disjoint (col : List ℚ) (v : ℚ) :
    col.countP (fun u => decide (v < u))
        + col.countP (fun u => decide (u = v)) ≤ col.length := by
  apply countP_add_countP_le_length
  intro x _ hx
  rcases hx with ⟨h1, h2⟩
  simp only [decide_eq_true_eq] at h1 h2
  exact absurd (h2 ▸ h1) (lt_irrefl v)

theorem rankPctDesc_pos (col : List ℚ) (v : ℚ) (hv : v ∈ col) :
    0 < rankPctDesc col v := by
  unfold rankPctDesc
  have hlen : 0 < (col.length : ℚ) := by
    have : 0 < col.length := List.length_pos.mpr (List.ne_nil_of_mem hv)
    exact_mod_cast this
  apply div_pos ?_ hlen
  have h1 : (0 : ℚ) ≤ (col.countP (fun u => decide (v < u)) : ℚ) :=
    Nat.cast_nonneg _
  have h2 : (0 : ℚ) < ((col.countP (fun u => decide (u = v)) : ℚ) + 1) / 2 := by
    positivity
  linarith

theorem rankPctDesc_le_one (col : List ℚ) (v : ℚ) (hv : v ∈ col) :
    rankPctDesc col v ≤ 1 := by
  unfold rankPctDesc
  have hlen : 0 < (col.length : ℚ) := by
    have : 0 < col.length := List.length_pos.mpr (List.ne_nil_of_mem hv)
    exact_mod_cast this
  rw [div_le_one hlen]
  have hge := countP_lt_eq_disjoint col v
  have he := countP_eq_pos_of_mem col v hv
  have hge' : (col.countP (fun u => decide (v < u)) : ℚ)
      + (col.countP (fun u => decide (u = v)) : ℚ) ≤ (col.length : ℚ) := by
    exact_mod_cast hge
  have he' : (1 : ℚ) ≤ (col.countP (fun u => decide (u = v)) : ℚ) := by
    exact_mod_cast he
  linarith

theorem countP_gtv_add_eqv_le (col : List ℚ) (v w : ℚ) (hwv : w < v) :
    col.countP (fun u => decide (v < u)) + col.countP (fun u => decide (u = v))
      ≤ col.countP (fun u => decide (w < u)) := by
  induction col with
  | nil => simp
  | cons x xs ih =>
    simp only [List.countP_cons]
    by_cases h1 : v < x
    · have h3 : w < x := hwv.trans h1
      have h2 : ¬ (x = v) := fun hc => absurd (hc ▸ h1) (lt_irrefl v)
      simp [h1, h2, h3]
      omega
    · by_cases h2 : x = v
      · simp [h1, h2, hwv]
        omega
      · by_cases h3 : w < x
        · simp [h1, h2, h3]; omega
        · simp [h1, h2, h3]; omega

theorem rankPctDesc_antitone (col : List ℚ) (v w : ℚ) (hwv : w ≤ v) :
    rankPctDesc col v ≤ rankPctDesc col w := by
  rcases eq_or_lt_of_le hwv with rfl | hlt
  · exact le_refl _
  · unfold rankPctDesc
    by_cases hcol : col.length = 0
    · rw [hcol]
      simp
    · have hlen : 0 < (col.length : ℚ) := by
        have : 0 < col.length := Nat.pos_of_ne_zero hcol
        exact_mod_cast this
      rw [div_le_div_iff_of_pos_right hlen]
      have hkey := countP_gtv_add_eqv_le col v w hlt
      have hkey' : (col.countP (fun u => decide (v < u)) : ℚ)
          + (col.countP (fun u => decide (u = v)) : ℚ)
            ≤ (col.countP (fun u => decide (w < u)) : ℚ) := by
        exact_mod_cast hkey
      have he1 : (0 : ℚ) ≤ (col.countP (fun u => decide (u = v)) : ℚ) :=
        Nat.cast_nonneg _
      have he2 : (0 : ℚ) ≤ (col.countP (fun u => decide (u = w)) : ℚ) :=
        Nat.cast_nonneg _
      linarith

/-! ### High-Value Customers structure -/

theorem hvc_eq_of_quantile_none (cm : List CMRow)
    (hq : quantile90 (cm.map (fun r => r.total_spent)) = none) :
    high_value_customers cm = [] := by
  unfold high_value_customers
  rw [hq]

theorem hvc_eq_of_quantile_some (cm : List CMRow) (th : ℚ)
    (hq : quantile90 (cm.map (fun r => r.total_spent)) = some th) :
    high_value_customers cm =
      ((cm.filter (fun r => decide (th ≤ r.total_spent))).insertionSort
          cmGE).map
        (fun r =>
          { toCMRow := r,
            rank := rankPctDesc
              (((cm.filter (fun r => decide (th ≤ r.total_spent))).insertionSort
                  cmGE).map (fun x => x.total_spent)) r.total_spent }) := by
  unfold high_value_customers
  rw [hq]

theorem hvc_props (cm : List CMRow) :
    (∀ r ∈ high_value_customers cm, 0 < r.rank ∧ r.rank ≤ 1 ∧
        r.rank = rankPctDesc
          ((high_value_customers cm).map (fun x => x.total_spent))
          r.total_spent)
    ∧ ((high_value_customers cm).map (fun r => r.total_spent)).Sorted
        (fun a b => b ≤ a)
    ∧ ((high_value_customers cm).map (fun r => r.rank)).Sorted
        (fun a b => a ≤ b) := by
  cases hq : quantile90 (cm.map (fun r => r.total_spent)) with
  | none =>
    rw [hvc_eq_of_quantile_none cm hq]
    simp
  | some th =>
    rw [hvc_eq_of_quantile_some cm th hq]
    have hsorted : List.Sorted cmGE
        ((cm.filter (fun r => decide (th ≤ r.total_spent))).insertionSort cmGE) :=
      List.sorted_insertionSort cmGE _
    set sorted :=
      (cm.filter (fun r => decide (th ≤ r.total_spent))).insertionSort cmGE
      with hs
    have hts : (sorted.map (fun r =>
        ({ toCMRow := r,
           rank := rankPctDesc (sorted.map (fun x => x.total_spent))
             r.total_spent } : HVRow))).map (fun x => x.total_spent)
        = sorted.map (fun r => r.total_spent) := by
      rw [List.map_map]
      rfl
    have hrk : (sorted.map (fun r =>
        ({ toCMRow := r,
           rank := rankPctDesc (sorted.map (fun x => x.total_spent))
             r.total_spent } : HVRow))).map (fun x => x.rank)
        = sorted.map (fun r =>
            rankPctDesc (sorted.map (fun x => x.total_spent)) r.total_spent) := by
      rw [List.map_map]
      rfl
    refine ⟨?_, ?_, ?_⟩
    · intro r' hmem
      rcases List.mem_map.mp hmem with ⟨x, hx, rfl⟩
      have hxts : x.total_spent ∈ sorted.map (fun x => x.total_spent) :=
        List.mem_map_of_mem _ hx
      refine ⟨rankPctDesc_pos _ _ hxts, rankPctDesc_le_one _ _ hxts, ?_⟩
      rw [hts]
    · rw [hts]
      exact hsorted.map _ (fun a b h => h)
    · rw [hrk]
      exact hsorted.map _
        (fun a b h => rankPctDesc_antitone _ a.total_spent b.total_spent h)

/-! ### Conservation of group counts -/

theorem grouped_count_sum (key : FactRow → Option κ) [DecidableEq κ]
    (kle : κ → κ → Prop) [DecidableRel kle] (ft : List FactRow) :
    (((distinctKeys key ft).insertionSort kle).map
        (fun k => ((groupRows key ft k).filter
          (fun r => r.transaction_id.isSome)).length)).sum
      = ft.countP (fun r => (key r).isSome && r.transaction_id.isSome) := by
  have hmap : ((distinctKeys key ft).insertionSort kle).map
      (fun k => ((groupRows key ft k).filter
        (fun r => r.transaction_id.isSome)).length)
      = ((distinctKeys key ft).insertionSort kle).map
        (fun k => (ft.filter (fun x => decide (key x = some k))).countP
          (fun r => r.transaction_id.isSome)) :=
    List.map_congr_left (fun k _ => by
      rw [groupRows, List.countP_eq_length_filter])
  rw [hmap]
  apply sum_groups_countP
  · have hnd : (distinctKeys key ft).Nodup :=
      pairwise_key_dedupBy (fun k => k) (ft.filterMap key)
    exact ((List.perm_insertionSort kle (distinctKeys key ft)).symm).nodup hnd
  · intro r hr k hk
    have h1 : k ∈ ft.filterMap key := List.mem_filterMap.mpr ⟨r, hr, hk⟩
    rcases exists_key_mem_dedupBy (fun k => k) (ft.filterMap key) k h1 with
      ⟨b, hb, hbk⟩
    have h2 : k ∈ distinctKeys key ft := by
      rw [← hbk]
      exact hb
    exact ((List.perm_insertionSort kle (distinctKeys key ft)).mem_iff).mpr h2

/-! ### Shape of fact rows and join row count -/

theorem mem_fact_shape (ts : List TxRow) (cs : List CustRow)
    (acs : List AcctRow) (r : FactRow)
    (h : r ∈ (transform_data ts cs acs).1) :
    ∃ t ∈ cleanTransactions ts, ∃ c : Option CustRow, ∃ a : Option AcctRow,
      r = mkFact (enrich t) c a := by
  unfold transform_data at h
  dsimp only at h
  rcases mem_leftJoinOn _ _ _ _ _ r h with ⟨p, hp, o, rfl⟩
  rcases mem_leftJoinOn _ _ _ _ _ p hp with ⟨x, hx, o2, rfl⟩
  rcases List.mem_map.mp hx with ⟨t, ht, rfl⟩
  exact ⟨t, ht, o2, o, rfl⟩

theorem transform_len (ts : List TxRow) (cs : List CustRow) (acs : List AcctRow)
    (hc : (cleanCustomers cs).Pairwise (fun a b => a.customer_id ≠ b.customer_id))
    (ha : acs.Pairwise (fun a b => a.account_id ≠ b.account_id)) :
    (transform_data ts cs acs).1.length
      = ((cleanTransactions ts).map enrich).length := by
  unfold transform_data
  dsimp only
  rw [length_leftJoinOn _ _ _ _ _ ha, length_leftJoinOn _ _ _ _ _ hc]

/-! ### Invariance of the groupings under removal of null-keyed rows -/

theorem monthly_summary_filter_inv (q : FactRow → Bool) (ft : List FactRow)
    (h : ∀ r ∈ ft, q r = false → monthKey r = none) :
    monthly_summary (ft.filter q) = monthly_summary ft := by
  unfold monthly_summary
  rw [distinctKeys_filter_of_none monthKey q ft h]
  congr 1
  apply List.map_congr_left
  intro k _
  rw [groupRows_filter_of_none monthKey q ft k h]

theorem customer_metrics_filter_inv (q : FactRow → Bool) (ft : List FactRow)
    (h : ∀ r ∈ ft, q r = false → cmKey r = none) :
    customer_metrics (ft.filter q) = customer_metrics ft := by
  unfold customer_metrics
  rw [distinctKeys_filter_of_none cmKey q ft h]
  apply List.map_congr_left
  intro k _
  rw [groupRows_filter_of_none cmKey q ft k h]

/-! ### Conservation of `transaction_count` sums -/

theorem monthly_count_conservation (ft : List FactRow) :
    ((monthly_summary ft).map (fun r => r.transaction_count)).sum
      = ft.countP (fun r => r.account_type.isSome && r.transaction_id.isSome) := by
  unfold monthly_summary
  have hperm : ((((distinctKeys monthKey ft).insertionSort mkeyLE).map
      (fun k => mkMonthlyRow k (groupRows monthKey ft k))).insertionSort
        mrowLE).map (fun r => r.transaction_count)
      |>.Perm
      ((((distinctKeys monthKey ft).insertionSort mkeyLE).map
        (fun k => mkMonthlyRow k (groupRows monthKey ft k))).map
          (fun r => r.transaction_count)) :=
    (List.perm_insertionSort mrowLE _).map _
  rw [hperm.sum_eq, List.map_map]
  have hfun : ((fun r => r.transaction_count)
        ∘ (fun k => mkMonthlyRow k (groupRows monthKey ft k)))
      = fun k => ((groupRows monthKey ft k).filter
          (fun r => r.transaction_id.isSome)).length := rfl
  rw [hfun, grouped_count_sum monthKey mkeyLE ft,
    List.countP_eq_length_filter, List.countP_eq_length_filter]
  congr 1
  apply List.filter_congr
  intro a _
  simp [monthKey]

theorem category_count_conservation (ft : List FactRow) :
    ((category_analysis ft).map (fun r => r.transaction_count)).sum
      = ft.countP
          (fun r => r.merchant_category.isSome && r.transaction_id.isSome) := by
  unfold category_analysis
  have hperm : ((((distinctKeys catKey ft).insertionSort strLE).map
      (fun k => mkCatRow k (groupRows catKey ft k))).insertionSort
        catGE).map (fun r => r.transaction_count)
      |>.Perm
      ((((distinctKeys catKey ft).insertionSort strLE).map
        (fun k => mkCatRow k (groupRows catKey ft k))).map
          (fun r => r.transaction_count)) :=
    (List.perm_insertionSort catGE _).map _
  rw [hperm.sum_eq, List.map_map]
  have hfun : ((fun r => r.transaction_count)
        ∘ (fun k => mkCatRow k (groupRows catKey ft k)))
      = fun k => ((groupRows catKey ft k).filter
          (fun r => r.transaction_id.isSome)).length := rfl
  rw [hfun, grouped_count_sum catKey strLE ft]
  rfl

/-! ### Concrete example data used by counterexamples and witnesses -/

/-- A prototypical fully-populated fact row. -/
def baseFact : FactRow :=
  { transaction_id := some 1
    customer_id := some ("C1")
    account_id := some ("A1")
    transaction_date := some ⟨2024, 1, 15⟩
    transaction_month := "2024-01"
    transaction_year := some 2024
    transaction_type := some ("debit")
    amount := some 100
    merchant_category := some ("Grocery")
    is_high_value := 0
    age := some 30
    city := some ("NY")
    account_type := some ("Checking")
    credit_score := some 700
    employment_status := some ("Employed") }

/-- A fact row whose `account_type` is null (its account had no match). -/
def fNullAcct : FactRow := { baseFact with account_type := none }

/-- A fact row whose `amount` is null. -/
def rNullAmount : FactRow := { baseFact with amount := none }

def f1 : FactRow :=
  { baseFact with
    amount := some 10000
    is_high_value := 1
    merchant_category := some ("Travel") }

def f2 : FactRow :=
  { baseFact with
    transaction_id := some 2
    customer_id := some ("C2")
    age := some 40
    city := some ("LA")
    credit_score := some 650
    amount := some 10000
    is_high_value := 1 }

def f3 : FactRow :=
  { baseFact with
    transaction_id := some 3
    customer_id := some ("C3")
    amount := some 1000 }

/-- A three-customer fact table whose top two customers tie on spend. -/
def ftC1 : List FactRow := [f1, f2, f3]

def cmEx1 : CMRow :=
  { customer_id := "C1", age := 30, city := "NY", credit_score := 700,
    employment_status := "Employed", transaction_count := 1,
    total_spent := 10000, high_value_txn_count := 1 }

def cmEx2 : CMRow :=
  { customer_id := "C2", age := 40, city := "LA", credit_score := 650,
    employment_status := "Employed", transaction_count := 1,
    total_spent := 10000, high_value_txn_count := 1 }

def cmEx3 : CMRow :=
  { customer_id := "C3", age := 30, city := "NY", credit_score := 700,
    employment_status := "Employed", transaction_count := 1,
    total_spent := 1000, high_value_txn_count := 0 }

theorem cm_ftC1 : customer_metrics ftC1 = [cmEx1, cmEx2, cmEx3] := by
  simp +decide [customer_metrics, distinctKeys, dedupBy, dedupByAux, groupRows,
    cmKey, mkCMRow, validAmounts, ftC1, f1, f2, f3, baseFact,
    List.insertionSort, List.orderedInsert,
    List.filterMap, List.filter, List.countP, List.countP.go,
    cmEx1, cmEx2, cmEx3]

theorem q_ftC1 :
    quantile90 ((customer_metrics ftC1).map (fun r => r.total_spent))
      = some 10000 := by
  rw [cm_ftC1]
  norm_num [quantile90, List.insertionSort, List.orderedInsert,
    cmEx1, cmEx2, cmEx3]

def hvEx1 : HVRow :=
  { customer_id := "C1", age := 30, city := "NY", credit_score := 700,
    employment_status := "Employed", transaction_count := 1,
    total_spent := 10000, high_value_txn_count := 1, rank := 3/4 }

def hvEx2 : HVRow :=
  { customer_id := "C2", age := 40, city := "LA", credit_score := 650,
    employment_status := "Employed", transaction_count := 1,
    total_spent := 10000, high_value_txn_count := 1, rank := 3/4 }

theorem hvc_ftC1 : (generate_insights ftC1).2.1 = [hvEx1, hvEx2] := by
  show high_value_customers (customer_metrics ftC1) = _
  rw [hvc_eq_of_quantile_some _ 10000 q_ftC1, cm_ftC1]
  simp +decide [List.insertionSort, List.orderedInsert, cmGE,
    cmEx1, cmEx2, cmEx3, hvEx1, hvEx2, rankPctDesc, List.countP,
    List.countP.go]
  norm_num

def cmNA : CMRow :=
  { customer_id := "C1", age := 30, city := "NY", credit_score := 700,
    employment_status := "Employed", transaction_count := 1,
    total_spent := 0, high_value_txn_count := 0 }

def hvNA : HVRow :=
  { customer_id := "C1", age := 30, city := "NY", credit_score := 700,
    employment_status := "Employed", transaction_count := 1,
    total_spent := 0, high_value_txn_count := 0, rank := 1 }

theorem cm_rNA : customer_metrics [rNullAmount] = [cmNA] := by
  simp +decide [customer_metrics, distinctKeys, dedupBy, dedupByAux, groupRows,
    cmKey, mkCMRow, validAmounts, rNullAmount, baseFact,
    List.insertionSort, List.orderedInsert,
    List.filterMap, List.filter, List.countP, List.countP.go, cmNA]

theorem q_rNA :
    quantile90 ((customer_metrics [rNullAmount]).map (fun r => r.total_spent))
      = some 0 := by
  rw [cm_rNA]
  norm_num [quantile90, List.insertionSort, List.orderedInsert, cmNA]

theorem hvc_rNA : (generate_insights [rNullAmount]).2.1 = [hvNA] := by
  show high_value_customers (customer_metrics [rNullAmount]) = _
  rw [hvc_eq_of_quantile_some _ 0 q_rNA, cm_rNA]
  simp +decide [List.insertionSort, List.orderedInsert, cmGE,
    cmNA, hvNA, rankPctDesc, List.countP, List.countP.go]

/-- Example raw transactions: an exact duplicate id and a second customer. -/
def tx1 : TxRow :=
  { transaction_id := some 1
    customer_id := some ("C1")
    account_id := some ("A1")
    transaction_date := some ⟨2024, 1, 15⟩
    transaction_type := some ("debit")
    amount := some 6000
    merchant_category := some ("Travel") }

def tx2 : TxRow :=
  { tx1 with
    transaction_id := some 2
    customer_id := some ("C2")
    transaction_date := some ⟨2024, 2, 20⟩
    amount := some 100
    merchant_category := some ("Grocery") }

def tsEx : List TxRow := [tx1, tx1, tx2]

def cu1 : CustRow :=
  { customer_id := some ("C1"), age := some 30, city := some ("NY"),
    credit_score := some 700, employment_status := some ("Employed") }

def cu2 : CustRow :=
  { customer_id := some ("C2"), age := some 40, city := some ("LA"),
    credit_score := some 650, employment_status := some ("Employed") }

def csEx : List CustRow := [cu1, cu2]

def ac1 : AcctRow :=
  { account_id := some ("A1"), account_type := some ("Checking") }

def acEx : List AcctRow := [ac1]

/-! ### The claims -/

/-- Modelled from the spec (claim C1's rank definition): the percentile rank
of a retained row's `total_spent` among ALL customer groups, as a fraction in
(0,1], with rank 1.0 assigned to the highest spend and ties sharing the
average rank fraction. -/
def specRankAllGroups (allTotals : List ℚ) (v : ℚ) : ℚ :=
  (((allTotals.countP (fun u => decide (u < v))) : ℚ)
      + (((allTotals.countP (fun u => decide (u = v))) : ℚ) + 1) / 2)
    / (allTotals.length : ℚ)

/-- C1 counterexample: on a three-customer fact table with spends 10000,
10000, 1000, the 0.9 quantile is 10000, so both top customers are retained;
the code computes each retained row's `rank` as 3/4 — the percentile rank
within the two RETAINED rows only — whereas the claim's rank among ALL three
groups (1.0 = highest, average ties) is 5/6 for a spend of 10000. -/
theorem C1_rank_counterexample :
    ((generate_insights ftC1).2.1).map (fun r => (r.customer_id, r.rank))
      = [(("C1"), (3 : ℚ)/4), (("C2"), (3 : ℚ)/4)]
    ∧ specRankAllGroups
        ((customer_metrics ftC1).map (fun r => r.total_spent)) 10000 = 5/6
    ∧ ((3 : ℚ)/4 ≠ 5/6) := by
  refine ⟨?_, ?_, by norm_num⟩
  · rw [hvc_ftC1]
    norm_num [hvEx1, hvEx2]
  · rw [cm_ftC1]
    norm_num [specRankAllGroups, cmEx1, cmEx2, cmEx3, List.countP,
      List.countP.go]

/-- C1 (amended): the `rank` column added to High-Value Customers is the
percentile rank of `total_spent` among the RETAINED rows only (not all
groups), descending with average ties — so the highest spend gets the
smallest fraction and the lowest retained row gets 1.0.  Every rank lies in
(0,1]; in output order `total_spent` is non-increasing and `rank` is
non-decreasing. -/
theorem C1_rank_amended (ft : List FactRow) :
    (∀ r ∈ (generate_insights ft).2.1,
        0 < r.rank ∧ r.rank ≤ 1 ∧
        r.rank = rankPctDesc
          (((generate_insights ft).2.1).map (fun x => x.total_spent))
          r.total_spent)
    ∧ (((generate_insights ft).2.1).map (fun r => r.total_spent)).Sorted
        (fun a b => b ≤ a)
    ∧ (((generate_insights ft).2.1).map (fun r => r.rank)).Sorted
        (fun a b => a ≤ b) :=
  hvc_props (customer_metrics ft)

/-- C1 witness: the amended rank property instantiated on the concrete
three-customer table at its first output row. -/
theorem C1_rank_amended_witness :
    hvEx1 ∈ (generate_insights ftC1).2.1
    ∧ (0 < hvEx1.rank ∧ hvEx1.rank ≤ 1 ∧
        hvEx1.rank = rankPctDesc
          (((generate_insights ftC1).2.1).map (fun x => x.total_spent))
          hvEx1.total_spent) := by
  have hmem : hvEx1 ∈ (generate_insights ftC1).2.1 := by
    rw [hvc_ftC1]
    exact List.mem_cons_self _ _
  exact ⟨hmem, (C1_rank_amended ftC1).1 hvEx1 hmem⟩

/-- C2 counterexample: a fact table consisting of one row with a null
`account_type` produces an EMPTY Monthly Summary — the row is dropped by
`groupby` (pandas default `dropna=True`), it does not form its own group. -/
theorem C2_null_account_counterexample :
    fNullAcct.account_type = none
    ∧ (generate_insights [fNullAcct]).1 = [] :=
  ⟨rfl, rfl⟩

/-- C2 (amended): fact rows with a null `account_type` are dropped from the
Monthly Summary grouping — removing them from the fact table leaves the
Monthly Summary unchanged. -/
theorem C2_null_account_amended (ft : List FactRow) :
    monthly_summary (ft.filter (fun r => r.account_type.isSome))
      = monthly_summary ft := by
  apply monthly_summary_filter_inv
  intro r _ hq
  unfold monthKey
  cases hat : r.account_type with
  | none => rfl
  | some v =>
    rw [hat] at hq
    simp at hq

/-- C3 counterexample: for the one-row fact table whose row has a null
`account_type`, the Monthly Summary transaction counts sum to 0 while the
fact table has 1 row. -/
theorem C3_count_conservation_counterexample :
    ((generate_insights [fNullAcct]).1.map (fun r => r.transaction_count)).sum
        = 0
    ∧ ([fNullAcct] : List FactRow).length = 1
    ∧ ((generate_insights [fNullAcct]).1.map
        (fun r => r.transaction_count)).sum
      ≠ ([fNullAcct] : List FactRow).length :=
  ⟨rfl, rfl, by decide⟩

/-- C3 (amended): the sum of `transaction_count` over the Monthly Summary
groups equals the number of fact rows with a non-null `account_type` AND a
non-null `transaction_id` (pandas `groupby` drops null keys and `'count'`
counts non-null ids); likewise the Category Analysis sum equals the number
of rows with non-null `merchant_category` and non-null `transaction_id`. -/
theorem C3_count_conservation_amended (ft : List FactRow) :
    ((monthly_summary ft).map (fun r => r.transaction_count)).sum
        = ft.countP (fun r => r.account_type.isSome && r.transaction_id.isSome)
    ∧ ((category_analysis ft).map (fun r => r.transaction_count)).sum
        = ft.countP
            (fun r => r.merchant_category.isSome && r.transaction_id.isSome) :=
  ⟨monthly_count_conservation ft, category_count_conservation ft⟩

/-- C4 counterexample: a non-degenerate fact table whose only row has a null
`amount` does NOT cause a fatal failure — `generate_insights` is total and
returns a defined, non-empty High-Value Customers table: the skip-null sum
makes `total_spent` 0, the 0.9 quantile of the singleton is 0, and the group
is retained with rank 1. -/
theorem C4_no_fatal_counterexample :
    rNullAmount.amount = none
    ∧ (generate_insights [rNullAmount]).2.1 = [hvNA]
    ∧ hvNA.total_spent = 0 ∧ hvNA.rank = 1 :=
  ⟨rfl, hvc_rNA, rfl, rfl⟩

/-- C4 (amended): an empty fact table yields three empty summaries without
error; a fact table with zero valid `amount` values also returns without
error — missing amounts are skipped, so group sums are 0, and the High-Value
Customers output may even be non-empty (no fatal failure occurs). -/
theorem C4_failure_semantics_amended :
    generate_insights ([] : List FactRow) = ([], [], [])
    ∧ (generate_insights [rNullAmount]).2.1 = [hvNA] :=
  ⟨rfl, hvc_rNA⟩

/-- C5: provided every `customer_id` occurs at most once in cleaned customers
and every `account_id` occurs at most once in accounts, the fact table has
exactly as many rows as the cleaned-and-enriched transactions table — the two
left joins neither drop nor duplicate any transaction row. -/
theorem C5_join_row_count (ts : List TxRow) (cs : List CustRow)
    (acs : List AcctRow)
    (hc : (cleanCustomers cs).Pairwise (fun a b => a.customer_id ≠ b.customer_id))
    (ha : acs.Pairwise (fun a b => a.account_id ≠ b.account_id)) :
    (transform_data ts cs acs).1.length
      = ((cleanTransactions ts).map enrich).length :=
  transform_len ts cs acs hc ha

/-- C5 witness: the join row-count invariant on the concrete example tables
(three raw transactions with one duplicate id, two customers, one account). -/
theorem C5_join_row_count_witness :
    ((cleanCustomers csEx).Pairwise (fun a b => a.customer_id ≠ b.customer_id)
      ∧ acEx.Pairwise (fun a b => a.account_id ≠ b.account_id))
    ∧ (transform_data tsEx csEx acEx).1.length
        = ((cleanTransactions tsEx).map enrich).length :=
  ⟨⟨by decide, by decide⟩,
    C5_join_row_count tsEx csEx acEx (by decide) (by decide)⟩

/-- C6: the cleaned transactions have pairwise-distinct `transaction_id`s,
form a sublist of the input (so every output row is an input row and the
relative order is the input order), and each surviving row is the first
occurrence of its `transaction_id` in the input. -/
theorem C6_dedup_correctness (ts : List TxRow) :
    (cleanTransactions ts).Pairwise
        (fun a b => a.transaction_id ≠ b.transaction_id)
    ∧ List.Sublist (cleanTransactions ts) ts
    ∧ ∀ r ∈ cleanTransactions ts,
        ts.find? (fun y => decide (y.transaction_id = r.transaction_id))
          = some r := by
  refine ⟨?_, ?_, ?_⟩
  · exact (pairwise_key_dedupBy (fun r => r.transaction_id) ts).filter _
  · exact (List.filter_sublist _).trans (dedupBy_sublist _ ts)
  · intro r hr
    have hrd : r ∈ dedupBy (fun r => r.transaction_id) ts :=
      List.mem_of_mem_filter hr
    exact find?_eq_of_mem_dedupBy _ ts r hrd

/-- C6 witness: the dedup property instantiated on the example input with an
exact duplicate transaction id. -/
theorem C6_dedup_correctness_witness :
    tx1 ∈ cleanTransactions tsEx
    ∧ tsEx.find? (fun y => decide (y.transaction_id = tx1.transaction_id))
        = some tx1 :=
  ⟨by decide, (C6_dedup_correctness tsEx).2.2 tx1 (by decide)⟩

/-- C7: the cleaning step is idempotent — applying the
deduplicate-then-drop-nulls cleaning twice (to transactions and to
customers) yields the same tables as applying it once. -/
theorem C7_cleaning_idempotent (ts : List TxRow) (cs : List CustRow) :
    cleanTransactions (cleanTransactions ts) = cleanTransactions ts
    ∧ cleanCustomers (cleanCustomers cs) = cleanCustomers cs := by
  unfold cleanTransactions cleanCustomers
  exact ⟨clean_idem_generic _ _ ts, clean_idem_generic _ _ cs⟩

/-- C8: every fact row produced by `transform_data` has a non-null amount,
and `is_high_value` is 1 exactly when that amount strictly exceeds 5000; at
exactly 5000 the flag is 0. -/
theorem C8_high_value_flag (ts : List TxRow) (cs : List CustRow)
    (acs : List AcctRow) (r : FactRow)
    (h : r ∈ (transform_data ts cs acs).1) :
    ∃ a : ℚ, r.amount = some a ∧ (r.is_high_value = 1 ↔ 5000 < a)
      ∧ (a = 5000 → r.is_high_value = 0) := by
  rcases mem_fact_shape ts cs acs r h with ⟨t, ht, c, a, rfl⟩
  have ht' : t ∈ (dedupBy (fun r => r.transaction_id) ts).filter
      (fun r => r.amount.isSome && r.customer_id.isSome) := ht
  have hps := List.of_mem_filter ht'
  have hsome : t.amount.isSome = true := by
    simp only [Bool.and_eq_true] at hps
    exact hps.1
  rcases Option.isSome_iff_exists.mp hsome with ⟨a0, ha0⟩
  have hihv : (mkFact (enrich t) c a).is_high_value
      = if 5000 < a0 then 1 else 0 := by
    show (enrich t).is_high_value = _
    unfold enrich
    simp [ha0]
  refine ⟨a0, ha0, ?_, ?_⟩
  · rw [hihv]
    by_cases h5 : 5000 < a0
    · simp [h5]
    · simp [h5]
  · intro h50
    rw [hihv, h50]
    simp

/-- C8 witness: the high-value flag property at the concrete fact row built
from the 6000-amount example transaction. -/
theorem C8_high_value_flag_witness :
    mkFact (enrich tx1) (some cu1) (some ac1) ∈ (transform_data tsEx csEx acEx).1
    ∧ ∃ a : ℚ, (mkFact (enrich tx1) (some cu1) (some ac1)).amount = some a
        ∧ ((mkFact (enrich tx1) (some cu1) (some ac1)).is_high_value = 1 ↔ 5000 < a)
        ∧ (a = 5000 → (mkFact (enrich tx1) (some cu1) (some ac1)).is_high_value = 0) :=
  ⟨by decide, C8_high_value_flag tsEx csEx acEx _ (by decide)⟩

/-- C9: on a source failure — the only failure the embedding can express,
since the later stages are total — the run entry point returns the same
error to its caller together with exactly one `"Pipeline failed: ..."`
diagnostic, and returns no partial summaries; on success it returns all
three summaries and the display output. -/
theorem C9_run_error_handling :
    (∀ e : String, runPipeline (Except.error e)
        = (Except.error e, ["Pipeline failed: " ++ e]))
    ∧ (∀ ts cs acs, runPipeline (Except.ok (ts, cs, acs))
        = (Except.ok (generate_insights (transform_data ts cs acs).1),
           display_insights
             (generate_insights (transform_data ts cs acs).1).1
             (generate_insights (transform_data ts cs acs).1).2.1
             (generate_insights (transform_data ts cs acs).1).2.2)) :=
  ⟨fun _ => rfl, fun _ _ _ => rfl⟩

/-- C10: fact rows whose joined customer fields are all null (the unmatched
rows of the customer left join) are excluded from the customer-metrics
grouping: removing them changes neither the customer metrics (so neither any
group's `total_spent` nor the 90th-percentile threshold) nor the High-Value
Customers output. -/
theorem C10_unmatched_customers_excluded (ft : List FactRow) :
    customer_metrics (ft.filter (fun r =>
        !(decide (r.age = none ∧ r.city = none ∧ r.credit_score = none
            ∧ r.employment_status = none)))) = customer_metrics ft
    ∧ (generate_insights (ft.filter (fun r =>
        !(decide (r.age = none ∧ r.city = none ∧ r.credit_score = none
            ∧ r.employment_status = none))))).2.1
      = (generate_insights ft).2.1 := by
  have h : ∀ r ∈ ft, (!(decide (r.age = none ∧ r.city = none
      ∧ r.credit_score = none ∧ r.employment_status = none))) = false →
      cmKey r = none := by
    intro r _ hq
    have hq2 : decide (r.age = none ∧ r.city = none ∧ r.credit_score = none
        ∧ r.employment_status = none) = true := by
      cases hd : decide (r.age = none ∧ r.city = none ∧ r.credit_score = none
        ∧ r.employment_status = none)
      · rw [hd] at hq
        exact absurd hq (by simp)
      · rfl
    have hq' := of_decide_eq_true hq2
    rcases hq' with ⟨h1, h2, h3, h4⟩
    cases hc : r.customer_id <;> simp [cmKey, hc, h1, h2, h3, h4]
  have hcm := customer_metrics_filter_inv _ ft h
  refine ⟨hcm, ?_⟩
  show high_value_customers (customer_metrics _)
    = high_value_customers (customer_metrics ft)
  rw [hcm]
